import Mathlib

/-!
Verification of the gatewayd connection-pool / proxy-engine core.

The proxy engine (`ProxyImpl` with `Connect`, `Disconnect`, `PassThrough`,
`IsHealty`, `IsExhausted`, `Shutdown`) is embedded from the Go source
(`network` package).  The generic pool container and the backend client
constructor are used by that source but their own implementations are not part
of the sources at hand, so they are modelled from the specification (sections
4.1 and 6): a capacity-bounded keyed association container, and a client built
from a `(network, address, buffer sizes, deadlines)` template with a fresh
identifier.

Machine-level aspects are made explicit:
* Go `nil`-pointer dereference (a panic) is modelled as the `none` result of
  the partial operations `Connect` and `PassThrough`.
* The untyped pool values (`interface{}` in Go) are modelled by `PVal`, so the
  failed type assertions of the source remain representable.
* `Close` calls and client construction are tracked in ghost fields
  (`closedClients`, `closedConns`, `created`, `dropped`) that never influence
  control flow; `dropped` counts backends that leave both pools without being
  closed (discarded, failed put-backs, overwritten bindings).
-/

namespace Gatewayd

/-- Backend client handle.  Modelled from the spec: the client implementation
is not among the given sources; section 6 specifies it as constructed from
`(network, address, receiveBufferSize, receiveChunkSize, receiveDeadline,
sendDeadline)` with an immutable identifier and an `IsConnected` predicate. -/
structure Client where
  network : String
  address : String
  receiveBufferSize : Nat
  receiveChunkSize : Nat
  receiveDeadline : Nat
  sendDeadline : Nat
  id : Nat
  connected : Bool
deriving DecidableEq

/-- A value stored in a pool: in Go the pools hold `interface{}`, so a value
is either a backend client or something that fails the `*Client` assertion. -/
inductive PVal where
  | client (c : Client)
  | other
deriving DecidableEq

/-- Error kinds of the engine (`gerr` package).  `serverSendFailed` carries
the wrapped error payload (an optional message, `none` when a nil error was
wrapped); `capacityExceeded` is the pool `Put` failure of spec section 4.1. -/
inductive GErr where
  | poolExhausted
  | clientNotFound
  | clientNotConnected
  | castFailed
  | capacityExceeded
  | serverSendFailed (wrapped : Option String)
deriving DecidableEq

/-- Association-list lookup by key, Go map semantics (first match). -/
def lookupKey : List (Nat × PVal) → Nat → Option PVal
  | [], _ => none
  | kv :: rest, k => if kv.1 = k then some kv.2 else lookupKey rest k

/-- Remove every entry with the given key. -/
def removeKey : List (Nat × PVal) → Nat → List (Nat × PVal)
  | [], _ => []
  | kv :: rest, k => if kv.1 = k then removeKey rest k else kv :: removeKey rest k

/-- The key does not occur among the entries. -/
def keyAbsent : List (Nat × PVal) → Nat → Bool
  | [], _ => true
  | kv :: rest, k => (kv.1 != k) && keyAbsent rest k

/-- All keys are pairwise distinct (a map holds each key once). -/
def keysNodup : List (Nat × PVal) → Bool
  | [] => true
  | kv :: rest => keyAbsent rest kv.1 && keysNodup rest

/-- Every stored value is a backend client (no pending cast failure). -/
def clientsOnly : List (Nat × PVal) → Bool
  | [] => true
  | (_, PVal.client _) :: rest => clientsOnly rest
  | (_, PVal.other) :: _ => false

/-- Connection pool.  Modelled from the spec, section 4.1: a capacity-bounded
keyed container; `capacity = 0` means unbounded. -/
structure Pool where
  cap : Nat
  entries : List (Nat × PVal)
deriving DecidableEq

def Pool.size (p : Pool) : Nat := p.entries.length

def Pool.get (p : Pool) (k : Nat) : Option PVal := lookupKey p.entries k

/-- Modelled from the spec: `Put` fails with a capacity-exceeded error when
`capacity > 0` and `size == capacity`; otherwise it stores the value under the
key (replacing any previous entry for that key). -/
def Pool.put (p : Pool) (k : Nat) (v : PVal) : Pool × Option GErr :=
  if 0 < p.cap ∧ p.size = p.cap then (p, some GErr.capacityExceeded)
  else ({ p with entries := (k, v) :: removeKey p.entries k }, none)

def Pool.remove (p : Pool) (k : Nat) : Pool :=
  { p with entries := removeKey p.entries k }

/-- Modelled from the spec: `Pop` on a missing key reports absence and leaves
the pool unchanged; on a present key it removes and returns the entry. -/
def Pool.pop (p : Pool) (k : Nat) : Option PVal × Pool :=
  match p.get k with
  | some v => (some v, p.remove k)
  | none => (none, p)

def Pool.clear (p : Pool) : Pool := { p with entries := [] }

/-- The key the `ForEach` loop in `Connect` settles on: the first entry's key
(iteration stops at the first key that is a string; all keys here are keys). -/
def Pool.firstKey (p : Pool) : Option Nat :=
  match p.entries with
  | [] => none
  | kv :: _ => some kv.1

/-- Modelled from the spec: a backend client freshly constructed from the
configured template; the identifier is content-addressed from a per-instance
seed, so a fresh seed yields a fresh identifier. -/
def NewClient (cfg : Client) (seed : Nat) : Client :=
  { network := cfg.network
    address := cfg.address
    receiveBufferSize := cfg.receiveBufferSize
    receiveChunkSize := cfg.receiveChunkSize
    receiveDeadline := cfg.receiveDeadline
    sendDeadline := cfg.sendDeadline
    id := seed
    connected := true }

/-- The proxy engine state (`ProxyImpl` of the source) plus ghost accounting:
`seed` feeds fresh client identifiers, `created` counts backends ever created,
`closedClients` and `closedConns` record `Close` calls, and `dropped` counts
backends that left both pools without being closed. -/
structure ProxyImpl where
  availableConnections : Pool
  busyConnections : Pool
  Elastic : Bool
  ReuseElasticClients : Bool
  ClientConfig : Client
  seed : Nat
  created : Nat
  closedClients : List Nat
  closedConns : List Nat
  dropped : Nat
deriving DecidableEq

/-- `NewProxy`: the busy pool starts empty with `EmptyPoolCapacity = 0`. -/
def NewProxy (p : Pool) (elastic reuse : Bool) (cfg : Client) (seedStart : Nat) :
    ProxyImpl :=
  { availableConnections := p
    busyConnections := { cap := 0, entries := [] }
    Elastic := elastic
    ReuseElasticClients := reuse
    ClientConfig := cfg
    seed := seedStart
    created := p.size
    closedClients := []
    closedConns := []
    dropped := 0 }

/-- `IsExhausted`: always false when elastic, otherwise true iff the available
pool has size 0 and a positive capacity. -/
def ProxyImpl.IsExhausted (pr : ProxyImpl) : Bool :=
  if pr.Elastic then false
  else pr.availableConnections.size == 0 && decide (0 < pr.availableConnections.cap)

/-- `IsHealty`: when the pool is exhausted it returns the client (unchanged)
with a pool-exhausted error, before ever touching the client.  Otherwise it
calls `client.IsConnected()`, which on a nil client dereferences the nil
pointer (result `none` = panic); a false connected-predicate is only logged. -/
def ProxyImpl.IsHealty (pr : ProxyImpl) (client : Option Client) :
    Option (Option Client × Option GErr) :=
  if pr.IsExhausted then some (client, some GErr.poolExhausted)
  else
    match client with
    | none => none
    | some c => some (some c, none)

/-- The tail of `Connect` after a client has (or has not) been obtained: the
`IsHealty` call whose error is only logged, the debug log that slices
`client.ID[:7]` (a nil dereference when no client was obtained), and the
insertion into the busy pool whose failure is returned.  The ghost `dropped`
increment records a previous binding for the same inbound connection being
overwritten (that backend silently leaves the busy pool unclosed). -/
def ProxyImpl.connectFinish (pr : ProxyImpl) (gconn : Nat) (client : Option Client) :
    Option (ProxyImpl × Option GErr) :=
  match pr.IsHealty client with
  | none => none
  | some (client2, _errLogged) =>
    match client2 with
    | none => none
    | some c =>
      let droppedInc :=
        match pr.busyConnections.get gconn with
        | some (PVal.client _) => 1
        | _ => 0
      let res := pr.busyConnections.put gconn (PVal.client c)
      match res.2 with
      | some e => some (pr, some e)
      | none =>
        some ({ pr with busyConnections := res.1, dropped := pr.dropped + droppedInc },
          none)

/-- `Connect`: picks the first available key, and either fails (exhausted,
non-elastic), creates a fresh client (exhausted, elastic — a branch that is in
fact unreachable, since `IsExhausted` is false whenever `Elastic` is true), or
pops the chosen entry from the available pool (a failed `*Client` assertion
leaves the client nil).  `none` models a Go panic. -/
def ProxyImpl.Connect (pr : ProxyImpl) (gconn : Nat) :
    Option (ProxyImpl × Option GErr) :=
  let clientID := pr.availableConnections.firstKey
  if pr.IsExhausted then
    if pr.Elastic then
      let c := NewClient pr.ClientConfig pr.seed
      ProxyImpl.connectFinish
        { pr with seed := pr.seed + 1, created := pr.created + 1 } gconn (some c)
    else some (pr, some GErr.poolExhausted)
  else
    match clientID with
    | none => pr.connectFinish gconn none
    | some cid =>
      let popped := pr.availableConnections.pop cid
      let client : Option Client :=
        match popped.1 with
        | some (PVal.client c) => some c
        | _ => none
      ProxyImpl.connectFinish { pr with availableConnections := popped.2 } gconn client

/-- `Disconnect`: pops the busy binding; no binding yields "client not found",
a non-client value yields the cast error.  With a client: in non-elastic mode
or elastic-with-reuse mode the liveness check result is only logged, the
client is put back into the available pool keyed by its identifier (a failed
put is only logged: the backend is dropped), and the call succeeds; in
elastic-without-reuse mode the backend is discarded (ghost `dropped`) and the
call fails with "client not connected". -/
def ProxyImpl.Disconnect (pr : ProxyImpl) (gconn : Nat) : ProxyImpl × Option GErr :=
  let popped := pr.busyConnections.pop gconn
  match popped.1 with
  | none => (pr, some GErr.clientNotFound)
  | some PVal.other => ({ pr with busyConnections := popped.2 }, some GErr.castFailed)
  | some (PVal.client c) =>
    if (pr.Elastic && pr.ReuseElasticClients) || !pr.Elastic then
      let droppedInc :=
        match pr.availableConnections.get c.id with
        | some (PVal.client _) => 1
        | _ => 0
      let res := pr.availableConnections.put c.id (PVal.client c)
      match res.2 with
      | some _ =>
        ({ pr with busyConnections := popped.2, dropped := pr.dropped + 1 }, none)
      | none =>
        ({ pr with
            busyConnections := popped.2
            availableConnections := res.1
            dropped := pr.dropped + droppedInc }, none)
    else
      ({ pr with busyConnections := popped.2, dropped := pr.dropped + 1 },
        some GErr.clientNotConnected)

/-- The result map of a hook stage run: the possible `"request"` /
`"response"` byte fields and the `"error"` string field.  A `some []` field is
the Go non-nil empty `[]byte`; an absent (or nil `[]byte`) field is `none`. -/
structure HookResult where
  request : Option (List Nat)
  response : Option (List Nat)
  errMsg : String
deriving DecidableEq

/-- `extractField` of `network/utils.go`: the named byte field (nil when the
result map is nil or the field is missing) and the `"error"` message. -/
def extractField (result : Option HookResult) (f : HookResult → Option (List Nat)) :
    Option (List Nat) × String :=
  match result with
  | none => (none, "")
  | some r => (f r, r.errMsg)

/-- The external behaviour one `PassThrough` call observes: the inbound read,
the two hook-stage runs, the backend send/receive, and the async write
submission.  `recvErrIsEOF` is the source's
`err != nil && errors.Is(err.Unwrap(), io.EOF)` test. -/
structure PTEnv where
  readBytes : List Nat
  readErr : Option String
  ingressResult : Option HookResult
  ingressRunErr : Option String
  sendErr : Option String
  recvCount : Nat
  recvBuf : List Nat
  recvErr : Option String
  recvErrIsEOF : Bool
  egressResult : Option HookResult
  egressRunErr : Option String
  asyncWriteErr : Option String
deriving DecidableEq

/-- Outcome of a `PassThrough` call: the engine state, the returned error, the
bytes handed to the backend `Send` (if the relay reached it), and the bytes
submitted to the inbound `AsyncWrite` (if the relay reached it). -/
structure PTOut where
  pr : ProxyImpl
  err : Option GErr
  sentToBackend : Option (List Nat)
  writtenToClient : Option (List Nat)
deriving DecidableEq

/-- Steps 7–8 of `PassThrough`: slice `response[:received]` (a panic when
`received` exceeds the buffer, modelled as `none`), run the egress hook, let a
non-nil `"response"` replacement supersede the response and its length, and
submit the async write.  On a failed submission the source returns
`ErrServerSendFailed.Wrap(err)` where `err` is, at that point, the error of
the egress hook `Run` call — not the `AsyncWrite` error held in `origErr`. -/
def passFinish (pr : ProxyImpl) (env : PTEnv) (request : List Nat)
    (received : Nat) (response : List Nat) : Option PTOut :=
  if received ≤ response.length then
    let modResponse := (extractField env.egressResult (fun r => r.response)).1
    let final :=
      match modResponse with
      | some r => (r, r.length)
      | none => (response, received)
    let written := final.1.take final.2
    match env.asyncWriteErr with
    | some _ =>
      some { pr := pr, err := some (GErr.serverSendFailed env.egressRunErr),
             sentToBackend := some request, writtenToClient := some written }
    | none =>
      some { pr := pr, err := none,
             sentToBackend := some request, writtenToClient := some written }
  else none

/-- Step 6 of `PassThrough`, taken when zero bytes were received and the
receive error unwraps to `io.EOF`: close the bound client, build a fresh one
from the `ClientConfig` template, and re-insert the busy binding for the same
inbound connection.  A failed re-insert is returned (the source's
"should never happen" branch). -/
def passReconnect (pr : ProxyImpl) (gconn : Nat) (env : PTEnv) (client : Client)
    (request : List Nat) : Option PTOut :=
  let newC := NewClient pr.ClientConfig pr.seed
  let pr1 :=
    { pr with
        closedClients := pr.closedClients ++ [client.id]
        seed := pr.seed + 1
        created := pr.created + 1
        busyConnections := pr.busyConnections.remove gconn }
  let res := pr1.busyConnections.put gconn (PVal.client newC)
  match res.2 with
  | some e =>
    some { pr := pr1, err := some e, sentToBackend := some request,
           writtenToClient := none }
  | none => passFinish { pr1 with busyConnections := res.1 } env request
      env.recvCount env.recvBuf

/-- Steps 2–6 of `PassThrough` once the busy binding produced a client: the
inbound read error is only logged; a non-nil `"request"` replacement from the
ingress hook supersedes the read bytes; the `Send` error is only logged; then
either the EOF-reconnect branch or the plain continuation. -/
def passBody (pr : ProxyImpl) (gconn : Nat) (env : PTEnv) (client : Client) :
    Option PTOut :=
  let request :=
    match (extractField env.ingressResult (fun r => r.request)).1 with
    | some r => r
    | none => env.readBytes
  if env.recvCount == 0 && env.recvErr.isSome && env.recvErrIsEOF then
    passReconnect pr gconn env client request
  else passFinish pr env request env.recvCount env.recvBuf

/-- `PassThrough`: requires an existing busy binding (else "client not
found"); a binding that fails the `*Client` assertion yields the cast error;
otherwise the relay body runs. -/
def ProxyImpl.PassThrough (pr : ProxyImpl) (gconn : Nat) (env : PTEnv) :
    Option PTOut :=
  match pr.busyConnections.get gconn with
  | none =>
    some { pr := pr, err := some GErr.clientNotFound,
           sentToBackend := none, writtenToClient := none }
  | some PVal.other =>
    some { pr := pr, err := some GErr.castFailed,
           sentToBackend := none, writtenToClient := none }
  | some (PVal.client client) => passBody pr gconn env client

/-- The backend-client id a pool entry closes, if its value is a client. -/
def clientIdOf : Nat × PVal → Option Nat
  | (_, PVal.client c) => some c.id
  | (_, PVal.other) => none

/-- `Shutdown`: close every client in the available pool and clear it; close
every busy entry's inbound connection and bound client and clear the busy
pool.  Closing is ghost accounting, so closing an already-closed handle (or an
empty pool) is a no-op, never a crash. -/
def ProxyImpl.Shutdown (pr : ProxyImpl) : ProxyImpl :=
  { pr with
      availableConnections := pr.availableConnections.clear
      busyConnections := pr.busyConnections.clear
      closedClients := pr.closedClients
        ++ pr.availableConnections.entries.filterMap clientIdOf
        ++ pr.busyConnections.entries.filterMap clientIdOf
      closedConns := pr.closedConns ++ pr.busyConnections.entries.map Prod.fst }

/-- One call of a non-overlapping `Connect`/`Disconnect` sequence. -/
inductive Op where
  | connect (gconn : Nat)
  | disconnect (gconn : Nat)
deriving DecidableEq

/-- Run a sequence of calls; `none` as soon as one call panics.  Returned
errors do not stop the sequence (each call is independent). -/
def runOps (pr : ProxyImpl) : List Op → Option ProxyImpl
  | [] => some pr
  | Op.connect g :: rest =>
    match pr.Connect g with
    | none => none
    | some (pr2, _) => runOps pr2 rest
  | Op.disconnect g :: rest => runOps (pr.Disconnect g).1 rest

/-- A well-formed pool: every value is a backend client and each key occurs
at most once (what the Go map-backed pool guarantees by construction). -/
def wfPool (p : Pool) : Bool := clientsOnly p.entries && keysNodup p.entries

/-- Well-formed engine: both pools well-formed, and the busy pool has the
capacity `NewProxy` gives it (`EmptyPoolCapacity = 0`). -/
def ProxyImpl.wf (pr : ProxyImpl) : Bool :=
  wfPool pr.availableConnections && wfPool pr.busyConnections &&
    (pr.busyConnections.cap == 0)

/-- The accounting equation: backends in the two pools, plus closed ones,
plus ones dropped without a close, add up to all backends ever created. -/
def balance (pr : ProxyImpl) : Prop :=
  pr.availableConnections.size + pr.busyConnections.size +
    pr.closedClients.length + pr.dropped = pr.created

/-! ### Concrete instances used by witnesses and counterexamples -/

/-- A sample backend client, also used as the configuration template. -/
def cSample : Client :=
  { network := "tcp", address := "localhost:5432", receiveBufferSize := 4,
    receiveChunkSize := 2, receiveDeadline := 1, sendDeadline := 1,
    id := 1, connected := true }

/-- A second backend client, distinct identifier. -/
def cB5 : Client :=
  { network := "tcp", address := "localhost:5432", receiveBufferSize := 4,
    receiveChunkSize := 2, receiveDeadline := 1, sendDeadline := 1,
    id := 2, connected := true }

/-- A backend client whose connected-predicate is false. -/
def cDis : Client :=
  { network := "tcp", address := "localhost:5432", receiveBufferSize := 4,
    receiveChunkSize := 2, receiveDeadline := 1, sendDeadline := 1,
    id := 3, connected := false }

/-- An engine whose busy pool binds inbound connection 5 to `cSample`. -/
def stW1 : ProxyImpl :=
  { availableConnections := { cap := 0, entries := [] }
    busyConnections := { cap := 0, entries := [(5, PVal.client cSample)] }
    Elastic := false
    ReuseElasticClients := false
    ClientConfig := cSample
    seed := 10
    created := 1
    closedClients := []
    closedConns := []
    dropped := 0 }

/-- An environment observing a zero-byte receive with an EOF error. -/
def envW1 : PTEnv :=
  { readBytes := [1, 2], readErr := none, ingressResult := none,
    ingressRunErr := none, sendErr := none, recvCount := 0, recvBuf := [],
    recvErr := some "EOF", recvErrIsEOF := true, egressResult := none,
    egressRunErr := none, asyncWriteErr := none }

/-- An environment whose async write submission fails while the egress hook
run reported no error. -/
def envW4 : PTEnv :=
  { readBytes := [1], readErr := none, ingressResult := none,
    ingressRunErr := none, sendErr := none, recvCount := 1, recvBuf := [9, 9],
    recvErr := none, recvErrIsEOF := false, egressResult := none,
    egressRunErr := none, asyncWriteErr := some "broken pipe" }

/-- An environment whose hooks replace both the request and the response. -/
def envW6 : PTEnv :=
  { readBytes := [1, 2, 3], readErr := none,
    ingressResult := some { request := some [7, 8], response := none, errMsg := "" },
    ingressRunErr := none, sendErr := none, recvCount := 2, recvBuf := [4, 5, 6],
    recvErr := none, recvErrIsEOF := false,
    egressResult := some { request := none, response := some [9], errMsg := "" },
    egressRunErr := none, asyncWriteErr := none }

/-- Elastic non-reuse engine holding one pooled backend. -/
def stC2 : ProxyImpl :=
  NewProxy { cap := 0, entries := [(1, PVal.client cSample)] } true false cSample 10

/-- The state `stC2` reaches after `Connect 5; Disconnect 5`: the backend was
discarded (dropped), not closed, and both pools are empty. -/
def stC2F : ProxyImpl :=
  { availableConnections := { cap := 0, entries := [] }
    busyConnections := { cap := 0, entries := [] }
    Elastic := true
    ReuseElasticClients := false
    ClientConfig := cSample
    seed := 10
    created := 1
    closedClients := []
    closedConns := []
    dropped := 1 }

/-- Non-elastic engine holding one pooled backend (capacity 1). -/
def stW2 : ProxyImpl :=
  NewProxy { cap := 1, entries := [(1, PVal.client cSample)] } false false cSample 10

/-- The state `stW2` reaches after `Connect 9`. -/
def stW2F : ProxyImpl :=
  { availableConnections := { cap := 1, entries := [] }
    busyConnections := { cap := 0, entries := [(9, PVal.client cSample)] }
    Elastic := false
    ReuseElasticClients := false
    ClientConfig := cSample
    seed := 10
    created := 1
    closedClients := []
    closedConns := []
    dropped := 0 }

/-- Non-elastic engine, empty available pool of positive capacity. -/
def stW3 : ProxyImpl := NewProxy { cap := 1, entries := [] } false false cSample 0

/-- Non-elastic engine whose available pool is at capacity while a binding
for inbound connection 7 exists. -/
def stC5 : ProxyImpl :=
  { availableConnections := { cap := 1, entries := [(1, PVal.client cSample)] }
    busyConnections := { cap := 0, entries := [(7, PVal.client cB5)] }
    Elastic := false
    ReuseElasticClients := false
    ClientConfig := cSample
    seed := 0
    created := 2
    closedClients := []
    closedConns := []
    dropped := 0 }

/-- Elastic engine with reuse, one busy binding, unbounded available pool. -/
def stW5 : ProxyImpl :=
  { availableConnections := { cap := 0, entries := [] }
    busyConnections := { cap := 0, entries := [(7, PVal.client cB5)] }
    Elastic := true
    ReuseElasticClients := true
    ClientConfig := cSample
    seed := 0
    created := 1
    closedClients := []
    closedConns := []
    dropped := 0 }

/-- Elastic engine with an empty available pool. -/
def stC7 : ProxyImpl := NewProxy { cap := 0, entries := [] } true true cSample 10

/-- Non-elastic engine, capacity 1, pooling only the disconnected client. -/
def stW8 : ProxyImpl :=
  NewProxy { cap := 1, entries := [(3, PVal.client cDis)] } false false cSample 10

/-- Engine with one available backend and one busy binding. -/
def stW9 : ProxyImpl :=
  { availableConnections := { cap := 2, entries := [(1, PVal.client cSample)] }
    busyConnections := { cap := 0, entries := [(7, PVal.client cB5)] }
    Elastic := false
    ReuseElasticClients := false
    ClientConfig := cSample
    seed := 0
    created := 2
    closedClients := []
    closedConns := []
    dropped := 0 }

/-- Non-elastic engine, empty available pool with capacity 0 (unbounded). -/
def stC10 : ProxyImpl := NewProxy { cap := 0, entries := [] } false false cSample 10

/-- Non-elastic engine whose pooled value fails the client type assertion. -/
def stC10b : ProxyImpl :=
  NewProxy { cap := 0, entries := [(4, PVal.other)] } false false cSample 10

/-! ### Association-list lemmas -/

theorem removeKey_of_absent : ∀ (l : List (Nat × PVal)) (k : Nat),
    keyAbsent l k = true → removeKey l k = l
  | [], _, _ => rfl
  | kv :: rest, k, h => by
    have h2 := (Bool.and_eq_true _ _).mp h
    have hne : ¬ kv.1 = k := by simpa using h2.1
    simp [removeKey, hne, removeKey_of_absent rest k h2.2]

theorem removeKey_of_lookup_none : ∀ (l : List (Nat × PVal)) (k : Nat),
    lookupKey l k = none → removeKey l k = l
  | [], _, _ => rfl
  | kv :: rest, k, h => by
    by_cases he : kv.1 = k
    · simp [lookupKey, he] at h
    · simp only [lookupKey, if_neg he] at h
      simp [removeKey, he, removeKey_of_lookup_none rest k h]

theorem keyAbsent_removeKey_self : ∀ (l : List (Nat × PVal)) (k : Nat),
    keyAbsent (removeKey l k) k = true
  | [], _ => rfl
  | kv :: rest, k => by
    by_cases he : kv.1 = k
    · simpa [removeKey, he] using keyAbsent_removeKey_self rest k
    · simp [removeKey, he, keyAbsent, keyAbsent_removeKey_self rest k, he]

theorem keyAbsent_removeKey : ∀ (l : List (Nat × PVal)) (j k : Nat),
    keyAbsent l j = true → keyAbsent (removeKey l k) j = true
  | [], _, _, _ => rfl
  | kv :: rest, j, k, h => by
    have h2 := (Bool.and_eq_true _ _).mp h
    by_cases he : kv.1 = k
    · simpa [removeKey, he] using keyAbsent_removeKey rest j k h2.2
    · simp only [removeKey, if_neg he, keyAbsent, Bool.and_eq_true]
      exact ⟨h2.1, keyAbsent_removeKey rest j k h2.2⟩

theorem keysNodup_removeKey : ∀ (l : List (Nat × PVal)) (k : Nat),
    keysNodup l = true → keysNodup (removeKey l k) = true
  | [], _, _ => rfl
  | kv :: rest, k, h => by
    have h2 := (Bool.and_eq_true _ _).mp h
    by_cases he : kv.1 = k
    · simpa [removeKey, he] using keysNodup_removeKey rest k h2.2
    · simp only [removeKey, if_neg he, keysNodup, Bool.and_eq_true]
      exact ⟨keyAbsent_removeKey rest kv.1 k h2.1, keysNodup_removeKey rest k h2.2⟩

theorem length_removeKey_some : ∀ (l : List (Nat × PVal)) (k : Nat) (v : PVal),
    keysNodup l = true → lookupKey l k = some v →
    (removeKey l k).length + 1 = l.length
  | [], _, _, _, h => by simp [lookupKey] at h
  | kv :: rest, k, v, hnd, h => by
    have h2 := (Bool.and_eq_true _ _).mp hnd
    by_cases he : kv.1 = k
    · have habs : keyAbsent rest k = true := he ▸ h2.1
      simp [removeKey, he, removeKey_of_absent rest k habs]
    · simp only [lookupKey, if_neg he] at h
      simp only [removeKey, if_neg he, List.length_cons]
      have := length_removeKey_some rest k v h2.2 h
      omega

theorem clientsOnly_removeKey : ∀ (l : List (Nat × PVal)) (k : Nat),
    clientsOnly l = true → clientsOnly (removeKey l k) = true
  | [], _, _ => rfl
  | (j, PVal.client c) :: rest, k, h => by
    by_cases he : j = k
    · simpa [removeKey, he] using clientsOnly_removeKey rest k (by simpa [clientsOnly] using h)
    · simpa [removeKey, he, clientsOnly] using
        clientsOnly_removeKey rest k (by simpa [clientsOnly] using h)
  | (j, PVal.other) :: rest, k, h => by simp [clientsOnly] at h

theorem clientsOnly_lookup : ∀ (l : List (Nat × PVal)) (k : Nat) (v : PVal),
    clientsOnly l = true → lookupKey l k = some v → ∃ c, v = PVal.client c
  | [], _, _, _, h => by simp [lookupKey] at h
  | (j, PVal.client c) :: rest, k, v, hco, h => by
    by_cases he : j = k
    · refine ⟨c, ?_⟩
      simp [lookupKey, he] at h
      exact h.symm
    · simp only [lookupKey, if_neg he] at h
      exact clientsOnly_lookup rest k v (by simpa [clientsOnly] using hco) h
  | (j, PVal.other) :: rest, k, v, hco, h => by simp [clientsOnly] at hco

/-! ### Engine invariants: well-formed pools and backend accounting -/

theorem elastic_not_exhausted (pr : ProxyImpl) (h : pr.Elastic = true) :
    pr.IsExhausted = false := by
  simp [ProxyImpl.IsExhausted, h]

theorem exhausted_not_elastic (pr : ProxyImpl) (h : pr.IsExhausted = true) :
    pr.Elastic = false := by
  by_cases he : pr.Elastic = true
  · rw [elastic_not_exhausted pr he] at h
    exact absurd h (by simp)
  · simpa using he

theorem IsHealty_some (pr : ProxyImpl) (c : Client) :
    pr.IsHealty (some c) =
      some (some c, if pr.IsExhausted then some GErr.poolExhausted else none) := by
  cases h : pr.IsExhausted <;> simp [ProxyImpl.IsHealty, h]

theorem IsHealty_none (pr : ProxyImpl) (h : pr.IsExhausted = false) :
    pr.IsHealty none = none := by
  simp [ProxyImpl.IsHealty, h]

theorem connectFinish_client (pr : ProxyImpl) (gconn : Nat) (c : Client)
    (hcap : pr.busyConnections.cap = 0) :
    pr.connectFinish gconn (some c) =
      some ({ pr with
          busyConnections := { pr.busyConnections with
            entries :=
              (gconn, PVal.client c) :: removeKey pr.busyConnections.entries gconn }
          dropped := pr.dropped +
            (match pr.busyConnections.get gconn with
              | some (PVal.client _) => 1
              | _ => 0) }, none) := by
  unfold ProxyImpl.connectFinish
  rw [IsHealty_some]
  simp [Pool.put, hcap]

theorem Connect_of_exhausted (pr : ProxyImpl) (g : Nat) (h : pr.IsExhausted = true) :
    pr.Connect g = some (pr, some GErr.poolExhausted) := by
  have hne := exhausted_not_elastic pr h
  simp [ProxyImpl.Connect, h, hne]

theorem Connect_of_empty (pr : ProxyImpl) (g : Nat)
    (hex : pr.IsExhausted = false)
    (hfk : pr.availableConnections.firstKey = none) :
    pr.Connect g = none := by
  simp [ProxyImpl.Connect, hex, hfk, ProxyImpl.connectFinish, IsHealty_none pr hex]

theorem Connect_pop (pr : ProxyImpl) (g cid : Nat) (c : Client)
    (hex : pr.IsExhausted = false)
    (hfk : pr.availableConnections.firstKey = some cid)
    (hget : pr.availableConnections.get cid = some (PVal.client c)) :
    pr.Connect g =
      ProxyImpl.connectFinish
        { pr with availableConnections := pr.availableConnections.remove cid }
        g (some c) := by
  simp [ProxyImpl.Connect, hex, hfk, Pool.pop, hget]

theorem get_firstKey (p : Pool) (k : Nat) (h : p.firstKey = some k) :
    ∃ v, p.get k = some v := by
  unfold Pool.firstKey at h
  match hh : p.entries with
  | [] => rw [hh] at h; simp at h
  | kv :: rest =>
    rw [hh] at h
    simp only [Option.some.injEq] at h
    exact ⟨kv.2, by simp [Pool.get, hh, lookupKey, h]⟩

theorem wf_fields (pr : ProxyImpl) (hwf : pr.wf = true) :
    clientsOnly pr.availableConnections.entries = true ∧
    keysNodup pr.availableConnections.entries = true ∧
    clientsOnly pr.busyConnections.entries = true ∧
    keysNodup pr.busyConnections.entries = true ∧
    pr.busyConnections.cap = 0 := by
  simp only [ProxyImpl.wf, wfPool, Bool.and_eq_true, beq_iff_eq] at hwf
  exact ⟨hwf.1.1.1, hwf.1.1.2, hwf.1.2.1, hwf.1.2.2, hwf.2⟩

theorem connect_preserves (pr pr2 : ProxyImpl) (g : Nat) (e : Option GErr)
    (hwf : pr.wf = true) (hb : balance pr)
    (h : pr.Connect g = some (pr2, e)) : pr2.wf = true ∧ balance pr2 := by
  obtain ⟨hcoa, hnda, hcob, hndb, hcap0⟩ := wf_fields pr hwf
  by_cases hex : pr.IsExhausted = true
  · rw [Connect_of_exhausted pr g hex] at h
    simp only [Option.some.injEq, Prod.mk.injEq] at h
    exact h.1 ▸ ⟨hwf, hb⟩
  · have hex2 : pr.IsExhausted = false := by simpa using hex
    cases hfk : pr.availableConnections.firstKey with
    | none => rw [Connect_of_empty pr g hex2 hfk] at h; exact absurd h (by simp)
    | some cid =>
      obtain ⟨v, hget⟩ := get_firstKey _ _ hfk
      obtain ⟨c, rfl⟩ := clientsOnly_lookup _ _ _ hcoa hget
      rw [Connect_pop pr g cid c hex2 hfk hget] at h
      rw [connectFinish_client _ _ _ (by simpa using hcap0)] at h
      simp only [Option.some.injEq, Prod.mk.injEq] at h
      obtain ⟨hpr2, -⟩ := h
      subst hpr2
      have hlenA := length_removeKey_some _ _ _ hnda hget
      constructor
      · simp only [ProxyImpl.wf, wfPool, Bool.and_eq_true, beq_iff_eq]
        refine ⟨⟨⟨clientsOnly_removeKey _ _ hcoa, keysNodup_removeKey _ _ hnda⟩,
          ?_, ?_⟩, by simpa using hcap0⟩
        · simpa [clientsOnly] using clientsOnly_removeKey _ g hcob
        · simp only [keysNodup, Bool.and_eq_true]
          exact ⟨keyAbsent_removeKey_self _ _, keysNodup_removeKey _ _ hndb⟩
      · unfold balance at hb ⊢
        simp only [Pool.size, Pool.remove, List.length_cons]
        cases hbg : pr.busyConnections.get g with
        | none =>
          have hrk := removeKey_of_lookup_none pr.busyConnections.entries g hbg
          simp only [hbg, hrk]
          simp only [Pool.size] at hb
          omega
        | some w =>
          obtain ⟨c2, rfl⟩ := clientsOnly_lookup _ _ _ hcob hbg
          have hlenB := length_removeKey_some _ _ _ hndb hbg
          simp only [hbg]
          simp only [Pool.size] at hb
          omega

theorem disconnect_preserves (pr : ProxyImpl) (g : Nat)
    (hwf : pr.wf = true) (hb : balance pr) :
    (pr.Disconnect g).1.wf = true ∧ balance (pr.Disconnect g).1 := by
  obtain ⟨hcoa, hnda, hcob, hndb, hcap0⟩ := wf_fields pr hwf
  unfold ProxyImpl.Disconnect
  cases hget : pr.busyConnections.get g with
  | none => simp only [Pool.pop, hget]; exact ⟨hwf, hb⟩
  | some v =>
    obtain ⟨c, rfl⟩ := clientsOnly_lookup _ _ _ hcob hget
    simp only [Pool.pop, hget]
    have hlenB := length_removeKey_some _ _ _ hndb hget
    have hwfB2 : wfPool (pr.busyConnections.remove g) = true := by
      simp only [wfPool, Pool.remove, Bool.and_eq_true]
      exact ⟨clientsOnly_removeKey _ _ hcob, keysNodup_removeKey _ _ hndb⟩
    by_cases hmode : ((pr.Elastic && pr.ReuseElasticClients) || !pr.Elastic) = true
    · simp only [hmode, if_true]
      by_cases hfull : 0 < pr.availableConnections.cap ∧
          pr.availableConnections.size = pr.availableConnections.cap
      · simp only [Pool.put, if_pos hfull]
        constructor
        · simp only [ProxyImpl.wf, wfPool, Bool.and_eq_true, beq_iff_eq] at hwf ⊢
          exact ⟨⟨hwf.1.1, by simpa [wfPool, Bool.and_eq_true, Pool.remove] using hwfB2⟩,
            hwf.2⟩
        · unfold balance at hb ⊢
          simp only [Pool.size, Pool.remove] at hb ⊢
          omega
      · simp only [Pool.put, if_neg hfull]
        cases hag : pr.availableConnections.get c.id with
        | none =>
          have hrk := removeKey_of_lookup_none pr.availableConnections.entries c.id hag
          simp only [hag]
          constructor
          · simp only [ProxyImpl.wf, wfPool, Bool.and_eq_true, beq_iff_eq]
            refine ⟨⟨⟨?_, ?_⟩,
              by simpa [wfPool, Bool.and_eq_true, Pool.remove] using hwfB2⟩,
              by simpa using hcap0⟩
            · simpa [clientsOnly] using clientsOnly_removeKey _ c.id hcoa
            · simp only [keysNodup, Bool.and_eq_true]
              exact ⟨keyAbsent_removeKey_self _ _, keysNodup_removeKey _ _ hnda⟩
          · unfold balance at hb ⊢
            simp only [Pool.size, Pool.remove, List.length_cons, hrk] at hb ⊢
            omega
        | some w =>
          obtain ⟨c3, rfl⟩ := clientsOnly_lookup _ _ _ hcoa hag
          have hlenA := length_removeKey_some _ _ _ hnda hag
          simp only [hag]
          constructor
          · simp only [ProxyImpl.wf, wfPool, Bool.and_eq_true, beq_iff_eq]
            refine ⟨⟨⟨?_, ?_⟩,
              by simpa [wfPool, Bool.and_eq_true, Pool.remove] using hwfB2⟩,
              by simpa using hcap0⟩
            · simpa [clientsOnly] using clientsOnly_removeKey _ c.id hcoa
            · simp only [keysNodup, Bool.and_eq_true]
              exact ⟨keyAbsent_removeKey_self _ _, keysNodup_removeKey _ _ hnda⟩
          · unfold balance at hb ⊢
            simp only [Pool.size, Pool.remove, List.length_cons] at hb ⊢
            omega
    · simp only [Bool.not_eq_true] at hmode
      simp only [hmode, Bool.false_eq_true, if_false]
      constructor
      · simp only [ProxyImpl.wf, wfPool, Bool.and_eq_true, beq_iff_eq] at hwf ⊢
        exact ⟨⟨hwf.1.1, by simpa [wfPool, Bool.and_eq_true, Pool.remove] using hwfB2⟩,
          hwf.2⟩
      · unfold balance at hb ⊢
        simp only [Pool.size, Pool.remove] at hb ⊢
        omega

theorem runOps_preserves : ∀ (ops : List Op) (pr prF : ProxyImpl),
    pr.wf = true → balance pr → runOps pr ops = some prF →
    prF.wf = true ∧ balance prF
  | [], pr, prF, hwf, hb, h => by
    simp only [runOps, Option.some.injEq] at h
    exact h ▸ ⟨hwf, hb⟩
  | Op.connect g :: rest, pr, prF, hwf, hb, h => by
    simp only [runOps] at h
    cases hc : pr.Connect g with
    | none => rw [hc] at h; exact absurd h (by simp)
    | some pe =>
      obtain ⟨pr2, e2⟩ := pe
      rw [hc] at h
      obtain ⟨hwf2, hb2⟩ := connect_preserves pr pr2 g e2 hwf hb hc
      exact runOps_preserves rest pr2 prF hwf2 hb2 h
  | Op.disconnect g :: rest, pr, prF, hwf, hb, h => by
    simp only [runOps] at h
    obtain ⟨hwf2, hb2⟩ := disconnect_preserves pr g hwf hb
    exact runOps_preserves rest (pr.Disconnect g).1 prF hwf2 hb2 h

/-! ### Further characterization lemmas -/

theorem isExhausted_iff (pr : ProxyImpl) :
    pr.IsExhausted = true ↔
      (pr.Elastic = false ∧ pr.availableConnections.size = 0 ∧
        0 < pr.availableConnections.cap) := by
  unfold ProxyImpl.IsExhausted
  cases h : pr.Elastic <;> simp [h]

theorem put_err (p : Pool) (k : Nat) (v : PVal) (e : GErr)
    (h : (p.put k v).2 = some e) : e = GErr.capacityExceeded := by
  unfold Pool.put at h
  by_cases hc : 0 < p.cap ∧ p.size = p.cap
  · rw [if_pos hc] at h
    simpa using h.symm
  · rw [if_neg hc] at h
    simp at h

theorem connectFinish_no_client (pr : ProxyImpl) (g : Nat) :
    pr.connectFinish g none = none := by
  unfold ProxyImpl.connectFinish ProxyImpl.IsHealty
  cases h : pr.IsExhausted <;> simp [h]

theorem Connect_pop_other (pr : ProxyImpl) (g cid : Nat)
    (hex : pr.IsExhausted = false)
    (hfk : pr.availableConnections.firstKey = some cid)
    (hget : pr.availableConnections.get cid = some PVal.other) :
    pr.Connect g = none := by
  simp [ProxyImpl.Connect, hex, hfk, Pool.pop, hget, connectFinish_no_client]

theorem connect_err_not_poolExhausted (pr st2 : ProxyImpl) (g : Nat) (e : Option GErr)
    (hex : pr.IsExhausted = false) (h : pr.Connect g = some (st2, e)) :
    e ≠ some GErr.poolExhausted := by
  cases hfk : pr.availableConnections.firstKey with
  | none => rw [Connect_of_empty pr g hex hfk] at h; exact absurd h (by simp)
  | some cid =>
    obtain ⟨v, hget⟩ := get_firstKey _ _ hfk
    cases v with
    | other => rw [Connect_pop_other pr g cid hex hfk hget] at h; exact absurd h (by simp)
    | client c =>
      rw [Connect_pop pr g cid c hex hfk hget] at h
      unfold ProxyImpl.connectFinish at h
      rw [IsHealty_some] at h
      simp only [] at h
      cases hput : (ProxyImpl.busyConnections
          { pr with availableConnections := pr.availableConnections.remove cid }).put g
          (PVal.client c) with
      | mk b2 pe =>
        cases pe with
        | none =>
          rw [hput] at h
          simp only [Option.some.injEq, Prod.mk.injEq] at h
          rw [← h.2]
          simp
        | some e2 =>
          rw [hput] at h
          simp only [Option.some.injEq, Prod.mk.injEq] at h
          have he2 : e2 = GErr.capacityExceeded := put_err _ _ _ _ (by rw [hput])
          rw [← h.2, he2]
          simp

theorem passFinish_some (pr : ProxyImpl) (env : PTEnv) (request : List Nat)
    (received : Nat) (response : List Nat) (hlen : received ≤ response.length) :
    ∃ out, passFinish pr env request received response = some out ∧ out.pr = pr ∧
      out.sentToBackend = some request ∧
      out.err ≠ some GErr.clientNotFound ∧ out.err ≠ some GErr.castFailed ∧
      (∀ r, (extractField env.egressResult (fun h2 => h2.response)).1 = some r →
        out.writtenToClient = some r) := by
  unfold passFinish
  rw [if_pos hlen]
  cases hae : env.asyncWriteErr with
  | none =>
    refine ⟨_, rfl, rfl, rfl, by simp, by simp, ?_⟩
    intro r hr
    simp only [hr, List.take_length]
  | some s =>
    refine ⟨_, rfl, rfl, rfl, by simp, by simp, ?_⟩
    intro r hr
    simp only [hr, List.take_length]

theorem passBody_eof (pr : ProxyImpl) (g : Nat) (env : PTEnv) (c : Client)
    (hcap : pr.busyConnections.cap = 0)
    (hrecv : env.recvCount = 0) (herr : env.recvErr.isSome = true)
    (heof : env.recvErrIsEOF = true) :
    passBody pr g env c = passFinish
      { pr with
          closedClients := pr.closedClients ++ [c.id]
          seed := pr.seed + 1
          created := pr.created + 1
          busyConnections := { pr.busyConnections with
            entries := (g, PVal.client (NewClient pr.ClientConfig pr.seed)) ::
              removeKey (removeKey pr.busyConnections.entries g) g } }
      env
      (match (extractField env.ingressResult (fun r => r.request)).1 with
        | some r => r
        | none => env.readBytes)
      env.recvCount env.recvBuf := by
  unfold passBody passReconnect
  rw [hrecv, herr, heof]
  simp [Pool.put, Pool.remove, hcap]

theorem passBody_no_eof (pr : ProxyImpl) (g : Nat) (env : PTEnv) (c : Client)
    (hno : (env.recvCount == 0 && env.recvErr.isSome && env.recvErrIsEOF) = false) :
    passBody pr g env c = passFinish pr env
      (match (extractField env.ingressResult (fun r => r.request)).1 with
        | some r => r
        | none => env.readBytes)
      env.recvCount env.recvBuf := by
  unfold passBody
  rw [hno]
  simp

theorem passThrough_bound (pr : ProxyImpl) (g : Nat) (env : PTEnv) (c : Client)
    (hbind : pr.busyConnections.get g = some (PVal.client c))
    (hcap : pr.busyConnections.cap = 0)
    (hlen : env.recvCount ≤ env.recvBuf.length) :
    ∃ out, pr.PassThrough g env = some out ∧
      out.err ≠ some GErr.clientNotFound ∧ out.err ≠ some GErr.castFailed ∧
      out.sentToBackend =
        some (match (extractField env.ingressResult (fun r => r.request)).1 with
          | some r => r
          | none => env.readBytes) ∧
      (∀ r, (extractField env.egressResult (fun h2 => h2.response)).1 = some r →
        out.writtenToClient = some r) := by
  unfold ProxyImpl.PassThrough
  rw [hbind]
  dsimp only
  cases heof : (env.recvCount == 0 && env.recvErr.isSome && env.recvErrIsEOF) with
  | true =>
    have h0 : env.recvCount = 0 := by
      have := (Bool.and_eq_true _ _).mp ((Bool.and_eq_true _ _).mp heof).1
      simpa using this.1
    have herr : env.recvErr.isSome = true :=
      (((Bool.and_eq_true _ _).mp ((Bool.and_eq_true _ _).mp heof).1)).2
    have hisof : env.recvErrIsEOF = true := ((Bool.and_eq_true _ _).mp heof).2
    rw [passBody_eof pr g env c hcap h0 herr hisof]
    obtain ⟨out, hout, hpr, hsent, hnf, hcf, hwr⟩ :=
      passFinish_some _ env _ env.recvCount env.recvBuf hlen
    exact ⟨out, hout, hnf, hcf, hsent, hwr⟩
  | false =>
    rw [passBody_no_eof pr g env c heof]
    obtain ⟨out, hout, hpr, hsent, hnf, hcf, hwr⟩ :=
      passFinish_some _ env _ env.recvCount env.recvBuf hlen
    exact ⟨out, hout, hnf, hcf, hsent, hwr⟩

/-! ### Claim theorems -/

/-- Claim C1: for every `PassThrough` call whose backend receive returns zero
bytes together with an error unwrapping to end-of-stream, the engine closes
the bound backend client and rebinds the same inbound connection in the busy
pool to a freshly constructed backend client (a new identifier built from the
`ClientConfig` template), so that a subsequent `PassThrough` for that inbound
connection operates against the replacement rather than failing with
client-not-found or the cast error. -/
theorem C1_eof_rebinds_fresh_backend (pr : ProxyImpl) (g : Nat) (env : PTEnv)
    (c : Client)
    (hbind : pr.busyConnections.get g = some (PVal.client c))
    (hcap : pr.busyConnections.cap = 0)
    (hrecv : env.recvCount = 0)
    (herr : env.recvErr.isSome = true)
    (heof : env.recvErrIsEOF = true)
    (hfresh : c.id ≠ pr.seed) :
    ∃ out, pr.PassThrough g env = some out ∧
      out.pr.busyConnections.get g =
        some (PVal.client (NewClient pr.ClientConfig pr.seed)) ∧
      (NewClient pr.ClientConfig pr.seed).id ≠ c.id ∧
      c.id ∈ out.pr.closedClients ∧
      (∀ env2, env2.recvCount ≤ env2.recvBuf.length →
        ∃ out2, out.pr.PassThrough g env2 = some out2 ∧
          out2.err ≠ some GErr.clientNotFound ∧
          out2.err ≠ some GErr.castFailed) := by
  unfold ProxyImpl.PassThrough
  rw [hbind]
  dsimp only
  rw [passBody_eof pr g env c hcap hrecv herr heof]
  obtain ⟨out, hout, hpr, hsent, hnf, hcf, hwr⟩ :=
    passFinish_some
      { pr with
          closedClients := pr.closedClients ++ [c.id]
          seed := pr.seed + 1
          created := pr.created + 1
          busyConnections := { pr.busyConnections with
            entries := (g, PVal.client (NewClient pr.ClientConfig pr.seed)) ::
              removeKey (removeKey pr.busyConnections.entries g) g } }
      env
      (match (extractField env.ingressResult (fun r => r.request)).1 with
        | some r => r
        | none => env.readBytes)
      env.recvCount env.recvBuf
      (by rw [hrecv]; exact Nat.zero_le _)
  have hbind2 : out.pr.busyConnections.get g =
      some (PVal.client (NewClient pr.ClientConfig pr.seed)) := by
    rw [hpr]
    simp [Pool.get, lookupKey]
  refine ⟨out, hout, hbind2, ?_, ?_, ?_⟩
  · simpa [NewClient] using Ne.symm hfresh
  · rw [hpr]
    simp
  · intro env2 hlen2
    have hcap2 : out.pr.busyConnections.cap = 0 := by
      rw [hpr]
      simpa using hcap
    obtain ⟨out2, h1, h2, h3, -, -⟩ :=
      passThrough_bound out.pr g env2 _ hbind2 hcap2 hlen2
    exact ⟨out2, h1, h2, h3⟩

/-- Witness for C1 at a concrete engine and environment. -/
theorem C1_witness :
    ∃ out, stW1.PassThrough 5 envW1 = some out ∧
      out.pr.busyConnections.get 5 =
        some (PVal.client (NewClient stW1.ClientConfig stW1.seed)) ∧
      (NewClient stW1.ClientConfig stW1.seed).id ≠ cSample.id ∧
      cSample.id ∈ out.pr.closedClients := by
  obtain ⟨out, h1, h2, h3, h4, -⟩ :=
    C1_eof_rebinds_fresh_backend stW1 5 envW1 cSample (by decide) (by decide)
      (by decide) (by decide) (by decide) (by decide)
  exact ⟨out, h1, h2, h3, h4⟩

/-- Claim C6: a `"request"` byte payload in the ingress hook result — rather
than the bytes read from the inbound connection — is what reaches the backend
`Send`; a non-empty `"response"` byte payload in the egress hook result
supersedes the backend response and its reported length in the bytes written
back to the inbound connection. -/
theorem C6_hook_replacements (pr : ProxyImpl) (g : Nat) (env : PTEnv) (c : Client)
    (hbind : pr.busyConnections.get g = some (PVal.client c))
    (hcap : pr.busyConnections.cap = 0)
    (hlen : env.recvCount ≤ env.recvBuf.length) :
    ∃ out, pr.PassThrough g env = some out ∧
      (∀ req, env.ingressResult = some req → ∀ r, req.request = some r →
        out.sentToBackend = some r) ∧
      (∀ res, env.egressResult = some res → ∀ r, res.response = some r →
        r ≠ [] → out.writtenToClient = some r) := by
  obtain ⟨out, hout, hnf, hcf, hsent, hwr⟩ :=
    passThrough_bound pr g env c hbind hcap hlen
  refine ⟨out, hout, ?_, ?_⟩
  · intro req hreq r hr
    rw [hsent]
    simp [extractField, hreq, hr]
  · intro res hres r hr hne
    exact hwr r (by simp [extractField, hres, hr])

/-- Witness for C6 at a concrete engine and environment. -/
theorem C6_witness :
    ∃ out, stW1.PassThrough 5 envW6 = some out ∧
      out.sentToBackend = some [7, 8] ∧ out.writtenToClient = some [9] := by
  obtain ⟨out, h1, h2, h3⟩ :=
    C6_hook_replacements stW1 5 envW6 cSample (by decide) (by decide) (by decide)
  exact ⟨out, h1,
    h2 { request := some [7, 8], response := none, errMsg := "" } rfl [7, 8] rfl,
    h3 { request := none, response := some [9], errMsg := "" } rfl [9] rfl
      (by decide)⟩

/-- Claim C4 (code bug): with a bound backend, a failing async-write
submission and an error-free egress hook run, `PassThrough` returns the
server-send-failed error wrapping the egress hook `Run` error variable (nil
here) — not the asynchronous write-submission failure the claim and the spec
describe. -/
theorem C4_wrap_wrong_error :
    (stW1.PassThrough 5 envW4).map PTOut.err =
      some (some (GErr.serverSendFailed none)) ∧
    (stW1.PassThrough 5 envW4).map PTOut.err ≠
      some (some (GErr.serverSendFailed envW4.asyncWriteErr)) := by decide

/-- Claim C2 (counterexample): in elastic mode without client reuse, one
non-overlapping `Connect`/`Disconnect` pair discards the backend without
closing it, after which the sum of the pool sizes (0) differs from backends
created minus backends closed (1 − 0). -/
theorem C2_counterexample :
    runOps stC2 [Op.connect 5, Op.disconnect 5] = some stC2F ∧
    stC2F.availableConnections.size + stC2F.busyConnections.size ≠
      stC2F.created - stC2F.closedClients.length := by decide

/-- Claim C2 (amended): for every non-overlapping sequence of `Connect` and
`Disconnect` calls from a well-formed engine in which no call panics, the sum
of the available-pool size and the busy-pool size equals the number of
backends ever created minus those closed minus those discarded without a
close (elastic-non-reuse releases, failed pool put-backs, and overwritten
busy bindings). -/
theorem C2_accounting (pr0 prF : ProxyImpl) (ops : List Op)
    (hwf : pr0.wf = true)
    (hb : balance pr0)
    (hrun : runOps pr0 ops = some prF) :
    prF.availableConnections.size + prF.busyConnections.size =
      prF.created - prF.closedClients.length - prF.dropped := by
  obtain ⟨-, hb2⟩ := runOps_preserves ops pr0 prF hwf hb hrun
  unfold balance at hb2
  omega

/-- Witness for the amended C2 at a concrete engine and call sequence. -/
theorem C2_witness :
    stW2F.availableConnections.size + stW2F.busyConnections.size =
      stW2F.created - stW2F.closedClients.length - stW2F.dropped :=
  C2_accounting stW2 stW2F [Op.connect 9] (by decide)
    (by unfold balance; decide) (by decide)

/-- Claim C3: `IsExhausted` is true exactly when the engine is non-elastic,
the available pool has size 0, and its capacity is positive (hence false
whenever elastic, and false whenever the capacity is 0); and a non-elastic
`Connect` returns the pool-exhausted error — leaving the engine, and so the
busy pool, unchanged — exactly when the available pool has size 0 and
positive capacity. -/
theorem C3_exhaustion (pr : ProxyImpl) (g : Nat) :
    (pr.IsExhausted = true ↔
      (pr.Elastic = false ∧ pr.availableConnections.size = 0 ∧
        0 < pr.availableConnections.cap)) ∧
    (pr.Elastic = false →
      ((pr.Connect g = some (pr, some GErr.poolExhausted)) ↔
        (pr.availableConnections.size = 0 ∧ 0 < pr.availableConnections.cap))) := by
  refine ⟨isExhausted_iff pr, ?_⟩
  intro hel
  constructor
  · intro h
    by_cases hcond : pr.availableConnections.size = 0 ∧
        0 < pr.availableConnections.cap
    · exact hcond
    · have hex : pr.IsExhausted = false := by
        cases hh : pr.IsExhausted
        · rfl
        · exact absurd ((isExhausted_iff pr).mp hh)
            (fun hc => hcond ⟨hc.2.1, hc.2.2⟩)
      exact absurd rfl (connect_err_not_poolExhausted pr pr g _ hex h)
  · intro hcond
    exact Connect_of_exhausted pr g
      ((isExhausted_iff pr).mpr ⟨hel, hcond.1, hcond.2⟩)

/-- Witness for C3 at a concrete exhausted engine. -/
theorem C3_witness :
    stW3.IsExhausted = true ∧
    stW3.Connect 4 = some (stW3, some GErr.poolExhausted) := by
  have h := C3_exhaustion stW3 4
  exact ⟨(h.1).mpr ⟨rfl, rfl, by decide⟩, (h.2 rfl).mpr ⟨rfl, by decide⟩⟩

/-- Claim C5 (counterexample): with the available pool at capacity,
`Disconnect` of a bound inbound connection returns success, yet the backend
(identifier 2) is not put into the available pool — it is dropped after the
put failure is merely logged. -/
theorem C5_counterexample :
    (stC5.Disconnect 7).2 = none ∧
    (stC5.Disconnect 7).1.availableConnections.get cB5.id = none := by decide

/-- Claim C5 (amended): `Disconnect` behaves by cases on the binding — no
binding: client-not-found with the engine unchanged; a backend binding in
non-elastic or elastic-with-reuse mode: the binding is removed and the call
succeeds regardless of the liveness check, the backend being put into the
available pool keyed by its identifier whenever the pool accepts it
(capacity 0 or size below capacity), while a capacity-full pool leaves the
available pool unchanged (the put failure is only logged and the backend
dropped); a backend binding in elastic-without-reuse mode: the binding is
removed, the backend goes to no pool, and the call fails with
client-not-connected. -/
theorem C5_disconnect_cases (pr : ProxyImpl) (g : Nat) :
    (pr.busyConnections.get g = none →
      pr.Disconnect g = (pr, some GErr.clientNotFound)) ∧
    (∀ c, pr.busyConnections.get g = some (PVal.client c) →
      ((pr.Elastic = false ∨ pr.ReuseElasticClients = true) →
        (pr.Disconnect g).2 = none ∧
        (pr.Disconnect g).1.busyConnections = pr.busyConnections.remove g ∧
        ((pr.availableConnections.cap = 0 ∨
            pr.availableConnections.size < pr.availableConnections.cap) →
          (pr.Disconnect g).1.availableConnections.get c.id =
            some (PVal.client c)) ∧
        ((0 < pr.availableConnections.cap ∧
            pr.availableConnections.size = pr.availableConnections.cap) →
          (pr.Disconnect g).1.availableConnections = pr.availableConnections)) ∧
      ((pr.Elastic = true ∧ pr.ReuseElasticClients = false) →
        (pr.Disconnect g).2 = some GErr.clientNotConnected ∧
        (pr.Disconnect g).1.busyConnections = pr.busyConnections.remove g ∧
        (pr.Disconnect g).1.availableConnections = pr.availableConnections)) := by
  constructor
  · intro h
    unfold ProxyImpl.Disconnect
    simp [Pool.pop, h]
  · intro c hget
    unfold ProxyImpl.Disconnect
    simp only [Pool.pop, hget]
    constructor
    · intro hmode
      have hmodeB : ((pr.Elastic && pr.ReuseElasticClients) || !pr.Elastic) = true := by
        rcases hmode with h | h
        · simp [h]
        · cases hE : pr.Elastic <;> simp [h, hE]
      rw [hmodeB]
      by_cases hfull : 0 < pr.availableConnections.cap ∧
          pr.availableConnections.size = pr.availableConnections.cap
      · refine ⟨?_, ?_, ?_, ?_⟩
        · simp [Pool.put, if_pos hfull]
        · simp [Pool.put, if_pos hfull]
        · intro hroom
          rcases hroom with h | h <;> omega
        · intro h2
          simp [Pool.put, if_pos hfull]
      · refine ⟨?_, ?_, ?_, ?_⟩
        · simp [Pool.put, if_neg hfull]
        · simp [Pool.put, if_neg hfull]
        · intro hroom
          simp [Pool.put, if_neg hfull, Pool.get, lookupKey]
        · intro h2
          exact absurd h2 hfull
    · intro hmode
      have hmodeB : ((pr.Elastic && pr.ReuseElasticClients) || !pr.Elastic) = false := by
        simp [hmode.1, hmode.2]
      rw [hmodeB]
      exact ⟨by simp, by simp, by simp⟩

/-- Witness for the amended C5: elastic-with-reuse disconnect of a bound
backend succeeds and returns it to the available pool under its identifier. -/
theorem C5_witness :
    (stW5.Disconnect 7).2 = none ∧
    (stW5.Disconnect 7).1.availableConnections.get cB5.id =
      some (PVal.client cB5) := by
  have h := (C5_disconnect_cases stW5 7).2 cB5 (by decide)
  obtain ⟨h1, -, h3, -⟩ := h.1 (Or.inr rfl)
  exact ⟨h1, h3 (Or.inl rfl)⟩

/-- Claim C7 (code bug): with an elastic engine and an empty available pool,
`Connect` is claimed to construct a brand-new backend from the template, but
since `IsExhausted` is always false when elastic, the source's elastic
branch is unreachable: `Connect` takes the pool-pop path, obtains no client,
and dereferences the nil client (a panic, modelled as `none`). -/
theorem C7_elastic_empty_panics :
    stC7.Elastic = true ∧ stC7.availableConnections.size = 0 ∧
    stC7.Connect 3 = none := by decide

/-- Claim C8: `IsHealty` returns the given backend client unchanged with a
pool-exhausted error exactly when the engine is non-elastic and the available
pool is empty with positive capacity — a false connected-predicate is never
an error; and a `Connect` that obtains a backend from the pool still binds it
into the busy pool and succeeds, whatever the liveness check said. -/
theorem C8_liveness (pr : ProxyImpl) (g cid : Nat) (c : Client) :
    (∀ d : Client, pr.IsHealty (some d) =
      some (some d,
        if pr.Elastic = false ∧ pr.availableConnections.size = 0 ∧
            0 < pr.availableConnections.cap
        then some GErr.poolExhausted else none)) ∧
    (pr.IsExhausted = false → pr.busyConnections.cap = 0 →
      pr.availableConnections.firstKey = some cid →
      pr.availableConnections.get cid = some (PVal.client c) →
      ∃ st2, pr.Connect g = some (st2, none) ∧
        st2.busyConnections.get g = some (PVal.client c)) := by
  constructor
  · intro d
    rw [IsHealty_some]
    by_cases hp : pr.Elastic = false ∧ pr.availableConnections.size = 0 ∧
        0 < pr.availableConnections.cap
    · rw [if_pos ((isExhausted_iff pr).mpr hp), if_pos hp]
    · rw [if_neg hp, if_neg]
      intro hx
      exact hp ((isExhausted_iff pr).mp hx)
  · intro hex hcap hfk hget
    rw [Connect_pop pr g cid c hex hfk hget]
    rw [connectFinish_client _ _ _ (by simpa using hcap)]
    refine ⟨_, rfl, ?_⟩
    simp [Pool.get, lookupKey]

/-- Witness for C8: connecting obtains the disconnected client `cDis`; the
liveness check on the emptied pool reports pool-exhausted and the client is
not connected, yet `Connect` binds it and succeeds. -/
theorem C8_witness :
    stW8.IsHealty (some cDis) = some (some cDis, none) ∧
    cDis.connected = false ∧
    (∃ st2, stW8.Connect 6 = some (st2, none) ∧
      st2.busyConnections.get 6 = some (PVal.client cDis)) := by
  have h := C8_liveness stW8 6 3 cDis
  refine ⟨?_, rfl, h.2 (by decide) (by decide) (by decide) (by decide)⟩
  rw [h.1 cDis, if_neg (by decide)]

/-- Claim C9: after `Shutdown` both pools have size 0, every backend client
that was in either pool has been closed, every inbound connection keyed in
the busy pool has been closed, and repeating `Shutdown` on the already-empty
engine changes nothing (no panic, a no-op). -/
theorem C9_shutdown (pr : ProxyImpl) :
    pr.Shutdown.availableConnections.size = 0 ∧
    pr.Shutdown.busyConnections.size = 0 ∧
    (∀ kv, kv ∈ pr.availableConnections.entries → ∀ c, kv.2 = PVal.client c →
      c.id ∈ pr.Shutdown.closedClients) ∧
    (∀ kv, kv ∈ pr.busyConnections.entries → ∀ c, kv.2 = PVal.client c →
      c.id ∈ pr.Shutdown.closedClients) ∧
    (∀ kv, kv ∈ pr.busyConnections.entries → kv.1 ∈ pr.Shutdown.closedConns) ∧
    pr.Shutdown.Shutdown = pr.Shutdown := by
  refine ⟨rfl, rfl, ?_, ?_, ?_, ?_⟩
  · intro kv hkv c hc
    obtain ⟨k1, v1⟩ := kv
    simp only at hc
    subst hc
    have hmem : c.id ∈ pr.availableConnections.entries.filterMap clientIdOf :=
      List.mem_filterMap.mpr ⟨(k1, PVal.client c), hkv, rfl⟩
    simp [ProxyImpl.Shutdown, List.mem_append, hmem]
  · intro kv hkv c hc
    obtain ⟨k1, v1⟩ := kv
    simp only at hc
    subst hc
    have hmem : c.id ∈ pr.busyConnections.entries.filterMap clientIdOf :=
      List.mem_filterMap.mpr ⟨(k1, PVal.client c), hkv, rfl⟩
    simp [ProxyImpl.Shutdown, List.mem_append, hmem]
  · intro kv hkv
    have hmem : kv.1 ∈ pr.busyConnections.entries.map Prod.fst :=
      List.mem_map.mpr ⟨kv, hkv, rfl⟩
    simp [ProxyImpl.Shutdown, List.mem_append, hmem]
  · simp [ProxyImpl.Shutdown, Pool.clear]

/-- Witness for C9 at a concrete engine with one backend in each pool. -/
theorem C9_witness :
    stW9.Shutdown.availableConnections.size = 0 ∧
    stW9.Shutdown.busyConnections.size = 0 ∧
    cSample.id ∈ stW9.Shutdown.closedClients ∧
    cB5.id ∈ stW9.Shutdown.closedClients ∧
    (7 : Nat) ∈ stW9.Shutdown.closedConns := by
  have h := C9_shutdown stW9
  exact ⟨h.1, h.2.1,
    h.2.2.1 (1, PVal.client cSample) (by decide) cSample rfl,
    h.2.2.2.1 (7, PVal.client cB5) (by decide) cB5 rfl,
    h.2.2.2.2.1 (7, PVal.client cB5) (by decide)⟩

/-- Claim C10 (code bug): `Connect` is claimed never to dereference a nil
client, but with a non-elastic engine whose available pool is empty with
capacity 0 (`IsExhausted` false), and likewise when the popped value fails
the client type assertion, the source dereferences the nil client inside the
liveness check (a panic, modelled as `none`). -/
theorem C10_connect_nil_deref :
    stC10.IsExhausted = false ∧ stC10.Connect 7 = none ∧
    stC10b.Connect 7 = none := by decide

end Gatewayd
